import Mathlib

/-!
Shallow embedding of `collectors/monitoring_collector.go` from the
stackdriver_exporter repository.

Modelling conventions:
* Go `time.Time` instants are modelled as `Int` nanoseconds since the Unix
  epoch, so `time.Unix(0, 0)` is `0` and `t.After(u)` is `u < t`.
* The RFC3339Nano end-time string of a point is modelled by its parse result:
  an `EndTimeField` is either `parsable t` (the string parses to instant `t`)
  or `unparsable raw` (the string `raw` fails `time.Parse`).
* Go `float64` values are modelled as rationals (`ℚ`); the conversion
  `float64(int64Value)` is modelled by `roundInt64ToFloat64`, IEEE-754
  round-to-nearest-even to 53 bits of precision (exact on the int64 range,
  whose magnitudes stay far below the float64 overflow threshold).
* Go maps (`Metric.Labels`, `Resource.Labels`) are modelled as association
  lists; the claims proved here do not depend on iteration order.
* `utils.NormalizeMetricName` is an external collaborator and is passed in as
  an opaque function argument `normalize`.
* A nil-pointer dereference (`*newestTSPoint.Value...` when the pointer or the
  typed field is nil) is a Go runtime panic; it is modelled by the explicit
  outcomes `ExtractResult.fault` / `SeriesStep.fault` / `ReportOutcome.fault`.
-/

namespace MonitoringCollector

/-- The end-time string of a point's interval, modelled by its parse result
(`time.Parse(time.RFC3339Nano, point.Interval.EndTime)`). -/
inductive EndTimeField where
  | parsable (nanos : Int)
  | unparsable (raw : String)
deriving DecidableEq, Repr

/-- `monitoring.TimeInterval` (only the `EndTime` field is read by the code). -/
structure TimeInterval where
  endTime : EndTimeField
deriving DecidableEq, Repr

/-- `monitoring.TypedValue`: exactly one of the typed pointer fields is set;
`otherValue` stands for a value whose bool/int64/double pointers are all nil
(distribution, string, money, ...). -/
inductive TypedValue where
  | boolValue (b : Bool)
  | int64Value (v : Int)
  | doubleValue (d : ℚ)
  | otherValue
deriving DecidableEq, Repr

/-- `monitoring.Point`. -/
structure Point where
  interval : TimeInterval
  value : TypedValue
deriving DecidableEq, Repr

/-- `monitoring.Metric`: metric type plus metric labels. -/
structure Metric where
  type : String
  labels : List (String × String)
deriving DecidableEq, Repr

/-- `monitoring.MonitoredResource`: resource type plus resource labels. -/
structure MonitoredResource where
  type : String
  labels : List (String × String)
deriving DecidableEq, Repr

/-- `monitoring.TimeSeries`, restricted to the fields the collector reads. -/
structure TimeSeries where
  metric : Metric
  resource : MonitoredResource
  metricKind : String
  valueType : String
  points : List Point
deriving DecidableEq, Repr

/-- `monitoring.MetricDescriptor`, restricted to the fields the collector
reads (`Type`, `Unit`, `Description`). -/
structure MetricDescriptor where
  type : String
  unit : String
  description : String
deriving DecidableEq, Repr

/-- `prometheus.ValueType` as used by the collector. -/
inductive ValueKind where
  | gaugeValue
  | counterValue
deriving DecidableEq, Repr

/-- The normalized sample built by `prometheus.MustNewConstMetric` at lines
293-303: fully-qualified name, help text, positional label keys/values, the
float64 value and the prometheus value type. -/
structure Sample where
  name : String
  description : String
  labelKeys : List String
  labelValues : List String
  value : ℚ
  valueKind : ValueKind
deriving DecidableEq, Repr

/-- `time.Parse(time.RFC3339Nano, ...)` on the modelled end-time field; on
failure the code wraps the raw string in an error message (line 248). -/
def parseEndTime : EndTimeField → Except String Int
  | .parsable nanos => .ok nanos
  | .unparsable raw =>
      .error ("Error parsing TimeSeries Point interval end time " ++ raw)

/-- The binary exponent of the float64 nearest an integer of magnitude `n`:
the number of mantissa bits of `n` beyond 53.  Valid for `n < 2 ^ 64`, which
covers every `int64` magnitude. -/
def f64exp (n : Nat) : Nat :=
  ((List.range 11).filter (fun k => 2 ^ (53 + k) ≤ n)).length

/-- Round a natural number to the nearest multiple of `2 ^ f64exp n`, ties to
even: the magnitude of the float64 produced by Go's `float64(int64)`
conversion. -/
def roundMantissa (n : Nat) : Nat :=
  let e := f64exp n
  if e = 0 then n
  else
    let q := n / 2 ^ e
    let r := n % 2 ^ e
    let half := 2 ^ (e - 1)
    let q' := if half < r ∨ (r = half ∧ q % 2 = 1) then q + 1 else q
    q' * 2 ^ e

/-- Go's `float64(v)` conversion of an `int64` (line 274): IEEE-754
round-to-nearest-even to 53 bits of precision; the result is the exact integer
the produced float64 denotes. -/
def roundInt64ToFloat64 (v : Int) : Int :=
  v.sign * (roundMantissa v.natAbs : Int)

/-- The `switch timeSeries.MetricKind` at lines 256-265: GAUGE maps to a gauge
value, DELTA and CUMULATIVE to a counter value, anything else hits `default:
continue` (no sample, no error). -/
def metricValueTypeFor (metricKind : String) : Option ValueKind :=
  if metricKind = "GAUGE" then some .gaugeValue
  else if metricKind = "DELTA" then some .counterValue
  else if metricKind = "CUMULATIVE" then some .counterValue
  else none

/-- Outcome of the `switch timeSeries.ValueType` at lines 267-280. `skipped`
is `default: continue`; `fault` is the nil-pointer panic that Go raises when
`newestTSPoint` is nil or the dereferenced typed field is nil. -/
inductive ExtractResult where
  | val (q : ℚ)
  | skipped
  | fault
deriving DecidableEq, Repr

/-- The `switch timeSeries.ValueType` at lines 267-280, dereferencing
`newestTSPoint.Value`. -/
def extractMetricValue (valueType : String) (newestTSPoint : Option Point) :
    ExtractResult :=
  if valueType = "BOOL" then
    match newestTSPoint with
    | some ⟨_, .boolValue b⟩ => .val (if b then 1 else 0)
    | _ => .fault
  else if valueType = "INT64" then
    match newestTSPoint with
    | some ⟨_, .int64Value v⟩ => .val ((roundInt64ToFloat64 v : Int) : ℚ)
    | _ => .fault
  else if valueType = "DOUBLE" then
    match newestTSPoint with
    | some ⟨_, .doubleValue d⟩ => .val d
    | _ => .fault
  else .skipped

/-- The inner point loop at lines 244-254: starting from
`newestEndTime := time.Unix(0, 0)` (but with `newestTSPoint` carried over from
outside the per-series loop, line 241), parse each point's end time, and take
the point whenever its end time is strictly after the newest seen so far. -/
def scanPoints (newestTSPoint : Option Point) (newestEndTime : Int) :
    List Point → Except String (Option Point)
  | [] => .ok newestTSPoint
  | point :: rest =>
      match parseEndTime point.interval.endTime with
      | .error msg => .error msg
      | .ok endTime =>
          if newestEndTime < endTime then scanPoints (some point) endTime rest
          else scanPoints newestTSPoint newestEndTime rest

/-- `prometheus.BuildFQName` (line 295). -/
def buildFQName (ns sub name : String) : String :=
  if name = "" then "" else ns ++ "_" ++ sub ++ "_" ++ name

/-- Result of processing one `timeSeries` of the page loop (lines 243-304):
either a sample is sent to `ch` (`emit`), the series is skipped by one of the
`continue`s (`skip`), the whole call returns an error (`fail`), or a
nil-pointer dereference panics (`fault`).  `emit` and `skip` carry the updated
`newestTSPoint` variable, which the Go code keeps across loop iterations. -/
inductive SeriesStep where
  | emit (newestTSPoint : Option Point) (s : Sample)
  | skip (newestTSPoint : Option Point)
  | fail (msg : String)
  | fault
deriving DecidableEq, Repr

/-- One iteration of the `for _, timeSeries := range page.TimeSeries` loop
(lines 243-304). -/
def processSeries (normalize : String → String)
    (metricDescriptor : MetricDescriptor) (newestTSPoint : Option Point)
    (timeSeries : TimeSeries) : SeriesStep :=
  match scanPoints newestTSPoint 0 timeSeries.points with
  | .error msg => .fail msg
  | .ok newest' =>
      match metricValueTypeFor timeSeries.metricKind with
      | none => .skip newest'
      | some metricValueType =>
          match extractMetricValue timeSeries.valueType newest' with
          | .skipped => .skip newest'
          | .fault => .fault
          | .val metricValue =>
              .emit newest'
                { name := buildFQName "stackdriver" "monitoring"
                    (normalize timeSeries.metric.type)
                  description := metricDescriptor.description
                  labelKeys := "unit" :: "resource_type" ::
                    (timeSeries.metric.labels.map Prod.fst ++
                      timeSeries.resource.labels.map Prod.fst)
                  labelValues := metricDescriptor.unit ::
                    timeSeries.resource.type ::
                    (timeSeries.metric.labels.map Prod.snd ++
                      timeSeries.resource.labels.map Prod.snd)
                  value := metricValue
                  valueKind := metricValueType }

/-- How a `reportTimeSeriesMetrics` call ends: normal return `nil`, an error
return (line 248), or a nil-pointer panic. -/
inductive ReportOutcome where
  | ok
  | fail (msg : String)
  | fault
deriving DecidableEq, Repr

/-- A `reportTimeSeriesMetrics` call observed from outside: the samples it
sent to `ch` (in order) and how it ended. -/
structure ReportResult where
  samples : List Sample
  outcome : ReportOutcome
deriving DecidableEq, Repr

/-- The `for _, timeSeries := range page.TimeSeries` loop, threading the
`newestTSPoint` variable (declared once at line 241, never reset between
series). -/
def processSeriesList (normalize : String → String)
    (metricDescriptor : MetricDescriptor) (newestTSPoint : Option Point) :
    List TimeSeries → ReportResult
  | [] => ⟨[], .ok⟩
  | timeSeries :: rest =>
      match processSeries normalize metricDescriptor newestTSPoint timeSeries with
      | .emit newest' s =>
          ⟨s :: (processSeriesList normalize metricDescriptor newest' rest).samples,
            (processSeriesList normalize metricDescriptor newest' rest).outcome⟩
      | .skip newest' => processSeriesList normalize metricDescriptor newest' rest
      | .fail msg => ⟨[], .fail msg⟩
      | .fault => ⟨[], .fault⟩

/-- `reportTimeSeriesMetrics` (lines 238-307): process one fetched page of
time series against one metric descriptor, with `newestTSPoint` starting nil. -/
def reportTimeSeriesMetrics (normalize : String → String)
    (metricDescriptor : MetricDescriptor) (page : List TimeSeries) :
    ReportResult :=
  processSeriesList normalize metricDescriptor none page

/-! ### The time-series listing requests and their time window

`metricDescriptorsFunction` (lines 143-203) runs once per fetched descriptor
page.  At lines 151-152 it reads the wall clock twice —
`startTime := time.Now().UTC().Add(-interval)` and `endTime := time.Now().UTC()`
— and every descriptor of that page then issues a time-series listing call
carrying exactly these two values (lines 159-162).  The ambient `time.Now()`
is modelled by passing in the two instants the callback read; a whole scrape
is modelled by the list of descriptor pages it processed, each tagged with its
two clock readings. -/

/-- A `Projects.TimeSeries.List` request as built at lines 159-162: the filter
string and the interval bounds it carries. -/
structure TSListRequest where
  filter : String
  intervalStart : Int
  intervalEnd : Int
deriving DecidableEq, Repr

/-- One descriptor page processed by `metricDescriptorsFunction`: the two
`time.Now()` readings of lines 151-152 and the descriptors of the page. -/
structure DescriptorPage where
  now1 : Int
  now2 : Int
  descriptors : List MetricDescriptor
deriving DecidableEq, Repr

/-- The time-series listing requests issued for one descriptor page
(lines 151-162): every descriptor's request carries
`startTime = now1 - interval` and `endTime = now2`. -/
def pageTSListRequests (interval : Int) (page : DescriptorPage) :
    List TSListRequest :=
  page.descriptors.map fun metricDescriptor =>
    { filter := "metric.type=\"" ++ metricDescriptor.type ++ "\""
      intervalStart := page.now1 - interval
      intervalEnd := page.now2 }

/-- All time-series listing requests issued during one scrape, read off the
descriptor pages it processed in order. -/
def scrapeTSListRequests (interval : Int) : List DescriptorPage →
    List TSListRequest
  | [] => []
  | page :: rest => pageTSListRequests interval page ++
      scrapeTSListRequests interval rest

/-! ### `Collect` and the bookkeeping metrics -/

/-- The mutable prometheus metrics of the collector that `Collect`
(lines 116-140) touches: three counters and three gauges. -/
structure CollectorState where
  apiCallsTotal : ℚ
  scrapesTotal : ℚ
  scrapeErrorsTotal : ℚ
  lastScrapeError : ℚ
  lastScrapeTimestamp : ℚ
  lastScrapeDurationSeconds : ℚ
deriving DecidableEq, Repr

/-- `Collect` (lines 116-140).  Inputs: the result of
`reportMonitoringMetrics` (`none` for nil), the current unix timestamp and the
elapsed scrape duration (both ambient `time.Now()` readings, passed in), and
the metric state.  Output: the updated state and the name/value pairs sent to
`ch`, in emission order.  The function returns normally in both branches: a
pipeline error is only logged and flagged, never propagated. -/
def Collect (reportErr : Option String) (nowUnix durationSeconds : ℚ)
    (st : CollectorState) : CollectorState × List (String × ℚ) :=
  let errorMetric : ℚ := if reportErr.isSome then 1 else 0
  let scrapeErrorsTotal :=
    if reportErr.isSome then st.scrapeErrorsTotal + 1 else st.scrapeErrorsTotal
  let st' : CollectorState :=
    { apiCallsTotal := st.apiCallsTotal
      scrapesTotal := st.scrapesTotal + 1
      scrapeErrorsTotal := scrapeErrorsTotal
      lastScrapeError := errorMetric
      lastScrapeTimestamp := nowUnix
      lastScrapeDurationSeconds := durationSeconds }
  (st',
    [("stackdriver_monitoring_scrape_errors_total", scrapeErrorsTotal),
     ("stackdriver_monitoring_api_calls_total", st.apiCallsTotal),
     ("stackdriver_monitoring_scrapes_total", st.scrapesTotal + 1),
     ("stackdriver_monitoring_last_scrape_error", errorMetric),
     ("stackdriver_monitoring_last_scrape_timestamp", nowUnix),
     ("stackdriver_monitoring_last_scrape_duration_seconds", durationSeconds)])

/-! ### Helper definitions for the proofs, and concrete fixtures -/

def ptime (p : Point) : Int :=
  match p.interval.endTime with
  | .parsable t => t
  | .unparsable _ => 0

def parsablePoint (p : Point) : Bool :=
  match p.interval.endTime with
  | .parsable _ => true
  | .unparsable _ => false

def pickNewest (cur : Option Point) (curTime : Int) : List Point → Option Point
  | [] => cur
  | p :: rest =>
      if curTime < ptime p then pickNewest (some p) (ptime p) rest
      else pickNewest cur curTime rest

/-- The first timestamp-parse error the point loop of lines 244-254 would hit
in a list of points, if any. -/
def firstScanError : List Point → Option String
  | [] => none
  | p :: rest =>
      match parseEndTime p.interval.endTime with
      | .error msg => some msg
      | .ok _ => firstScanError rest

/-- A concrete metric descriptor. -/
def mdFix : MetricDescriptor := ⟨"custom.googleapis.com/gauge_metric", "ms", "A test metric."⟩

/-- A point with a parsable end time and an int64 value. -/
def pInt (t v : Int) : Point := ⟨⟨.parsable t⟩, .int64Value v⟩

/-- A GAUGE/INT64 time series over the given points. -/
def tsGaugeInt (pts : List Point) : TimeSeries :=
  ⟨⟨"custom.googleapis.com/gauge_metric", []⟩, ⟨"gce_instance", []⟩, "GAUGE", "INT64", pts⟩

def tsInt42 : TimeSeries := tsGaugeInt [pInt 1000000000 42]

def tsNoPoints : TimeSeries := tsGaugeInt []

def tsEpochPoint : TimeSeries := tsGaugeInt [pInt 0 9]

def tsTie : TimeSeries := tsGaugeInt [pInt 5 10, pInt 5 20]

def tsBadTime : TimeSeries := tsGaugeInt [⟨⟨.unparsable "XXX"⟩, .int64Value 1⟩]

def tsBigInt : TimeSeries := tsGaugeInt [pInt 1000000000 9007199254740993]

def tsFooKind : TimeSeries :=
  ⟨⟨"m", []⟩, ⟨"gce_instance", []⟩, "FOO", "INT64", [pInt 5 1]⟩

def tsDistribution : TimeSeries :=
  ⟨⟨"m", []⟩, ⟨"gce_instance", []⟩, "GAUGE", "DISTRIBUTION", [pInt 5 1]⟩

def tsDupLabels : TimeSeries :=
  ⟨⟨"m", [("dup", "a")]⟩, ⟨"gce_instance", [("dup", "b")]⟩, "GAUGE", "INT64", [pInt 5 1]⟩

/-- The sample `tsInt42` produces against `mdFix`. -/
def sample42 : Sample :=
  ⟨"stackdriver_monitoring_custom.googleapis.com/gauge_metric", "A test metric.",
    ["unit", "resource_type"], ["ms", "gce_instance"], 42, .gaugeValue⟩

/-- The sample `tsDupLabels` produces against `mdFix`. -/
def sampleDup : Sample :=
  ⟨"stackdriver_monitoring_m", "A test metric.",
    ["unit", "resource_type", "dup", "dup"], ["ms", "gce_instance", "a", "b"], 1, .gaugeValue⟩

def pT1 : Point := pInt 1000000000 10
def pT2 : Point := pInt 6000000000 55
def pT3 : Point := pInt 3000000000 22

/-- A series whose point end times are T, T+5s, T+2s with T = 1s. -/
def tsC2 : TimeSeries := tsGaugeInt [pT1, pT2, pT3]

/-- The single request of the one-descriptor page used by the C4 witness. -/
def reqFix : TSListRequest :=
  ⟨"metric.type=\"custom.googleapis.com/gauge_metric\"", 50, 100⟩

/-! ### Theorems -/

theorem parseEndTime_eq_of_parsable {p : Point} (h : parsablePoint p = true) :
    parseEndTime p.interval.endTime = Except.ok (ptime p) := by
  cases hp : p.interval.endTime with
  | parsable t => simp [parseEndTime, ptime, hp]
  | unparsable raw => simp [parsablePoint, hp] at h

theorem scanPoints_eq_pickNewest {ps : List Point}
    (hp : ∀ p ∈ ps, parsablePoint p = true) :
    ∀ cur curTime, scanPoints cur curTime ps = Except.ok (pickNewest cur curTime ps) := by
  induction ps with
  | nil => intro cur t; rfl
  | cons p rest ih =>
    intro cur t
    have h1 : parsablePoint p = true := hp p (List.mem_cons_self p rest)
    have hrest : ∀ q ∈ rest, parsablePoint q = true :=
      fun q hq => hp q (List.mem_cons_of_mem _ hq)
    rw [scanPoints, pickNewest, parseEndTime_eq_of_parsable h1]
    show (if t < ptime p then scanPoints (some p) (ptime p) rest
          else scanPoints cur t rest) = _
    by_cases hlt : t < ptime p
    · rw [if_pos hlt, if_pos hlt]
      exact ih hrest (some p) (ptime p)
    · rw [if_neg hlt, if_neg hlt]
      exact ih hrest cur t

theorem pickNewest_stay {M : Int} {p : Point} {ps : List Point}
    (h : ∀ q ∈ ps, ptime q ≤ M) : pickNewest (some p) M ps = some p := by
  induction ps with
  | nil => rfl
  | cons q rest ih =>
    have hq : ptime q ≤ M := h q (List.mem_cons_self q rest)
    rw [pickNewest, if_neg (not_lt.mpr hq)]
    exact ih (fun r hr => h r (List.mem_cons_of_mem _ hr))

theorem pickNewest_first {pmax : Point} {l2 : List Point}
    (h2 : ∀ q ∈ l2, ptime q ≤ ptime pmax) :
    ∀ (l1 : List Point) (cur : Option Point) (curTime : Int),
      curTime < ptime pmax →
      (∀ q ∈ l1, ptime q < ptime pmax) →
      pickNewest cur curTime (l1 ++ pmax :: l2) = some pmax := by
  intro l1
  induction l1 with
  | nil =>
    intro cur t hcur _
    rw [List.nil_append, pickNewest, if_pos hcur]
    exact pickNewest_stay h2
  | cons q l1' ih =>
    intro cur t hcur h1
    rw [List.cons_append, pickNewest]
    by_cases hlt : t < ptime q
    · rw [if_pos hlt]
      exact ih (some q) (ptime q) (h1 q (List.mem_cons_self q l1'))
        (fun r hr => h1 r (List.mem_cons_of_mem _ hr))
    · rw [if_neg hlt]
      exact ih cur t hcur (fun r hr => h1 r (List.mem_cons_of_mem _ hr))

theorem processSeries_emit_inv {normalize : String → String}
    {md : MetricDescriptor} {cur : Option Point} {ts : TimeSeries}
    {n' : Option Point} {s : Sample}
    (h : processSeries normalize md cur ts = SeriesStep.emit n' s) :
    scanPoints cur 0 ts.points = Except.ok n' ∧
    metricValueTypeFor ts.metricKind = some s.valueKind ∧
    extractMetricValue ts.valueType n' = ExtractResult.val s.value ∧
    s.name = buildFQName "stackdriver" "monitoring" (normalize ts.metric.type) ∧
    s.description = md.description ∧
    s.labelKeys = "unit" :: "resource_type" ::
      (ts.metric.labels.map Prod.fst ++ ts.resource.labels.map Prod.fst) ∧
    s.labelValues = md.unit :: ts.resource.type ::
      (ts.metric.labels.map Prod.snd ++ ts.resource.labels.map Prod.snd) := by
  unfold processSeries at h
  cases hscan : scanPoints cur 0 ts.points with
  | error msg => rw [hscan] at h; exact absurd h (by simp)
  | ok newest' =>
    rw [hscan] at h
    dsimp only at h
    cases hmvt : metricValueTypeFor ts.metricKind with
    | none => rw [hmvt] at h; exact absurd h (by simp)
    | some mvt =>
      rw [hmvt] at h
      dsimp only at h
      cases hv : extractMetricValue ts.valueType newest' with
      | skipped => rw [hv] at h; exact absurd h (by simp)
      | fault => rw [hv] at h; exact absurd h (by simp)
      | val v =>
        rw [hv] at h
        dsimp only at h
        cases h
        exact ⟨rfl, rfl, hv, rfl, rfl, rfl, rfl⟩

theorem f64exp_eq_zero {n : Nat} (h : n < 2 ^ 53) : f64exp n = 0 := by
  unfold f64exp
  rw [List.filter_eq_nil_iff.mpr]
  · rfl
  · intro k _
    simp only [decide_eq_true_eq, not_le]
    exact lt_of_lt_of_le h (Nat.pow_le_pow_right (by norm_num) (Nat.le_add_right 53 k))

theorem roundMantissa_eq_self {n : Nat} (h : n ≤ 2 ^ 53) : roundMantissa n = n := by
  rcases Nat.lt_or_ge n (2 ^ 53) with hlt | hge
  · unfold roundMantissa
    rw [f64exp_eq_zero hlt]
    simp
  · have heq : n = 2 ^ 53 := le_antisymm h hge
    subst heq
    decide

theorem roundInt64ToFloat64_exact {v : Int} (h : v.natAbs ≤ 2 ^ 53) :
    roundInt64ToFloat64 v = v := by
  unfold roundInt64ToFloat64
  rw [roundMantissa_eq_self h]
  exact Int.sign_mul_natAbs v

theorem scanPoints_error_of_firstScanError {ps : List Point} {msg : String}
    (h : firstScanError ps = some msg) :
    ∀ cur curTime, scanPoints cur curTime ps = Except.error msg := by
  induction ps with
  | nil => cases h
  | cons p rest ih =>
    intro cur t
    rw [firstScanError] at h
    rw [scanPoints]
    cases hp : parseEndTime p.interval.endTime with
    | error m => rw [hp] at h; cases h; rfl
    | ok t' =>
      rw [hp] at h
      dsimp only at h ⊢
      by_cases hlt : t < t'
      · rw [if_pos hlt]; exact ih h (some p) t'
      · rw [if_neg hlt]; exact ih h cur t

theorem scanPoints_ok_of_firstScanError_none {ps : List Point}
    (h : firstScanError ps = none) :
    ∀ cur curTime, ∃ n', scanPoints cur curTime ps = Except.ok n' := by
  induction ps with
  | nil => exact fun cur t => ⟨cur, rfl⟩
  | cons p rest ih =>
    intro cur t
    rw [firstScanError] at h
    rw [scanPoints]
    cases hp : parseEndTime p.interval.endTime with
    | error m => rw [hp] at h; cases h
    | ok t' =>
      rw [hp] at h
      dsimp only
      by_cases hlt : t < t'
      · rw [if_pos hlt]; exact ih h (some p) t'
      · rw [if_neg hlt]; exact ih h cur t

theorem metricValueTypeFor_eq_none {k : String}
    (h : k ∉ (["GAUGE", "DELTA", "CUMULATIVE"] : List String)) :
    metricValueTypeFor k = none := by
  simp only [List.mem_cons, List.not_mem_nil, or_false, not_or] at h
  obtain ⟨h1, h2, h3⟩ := h
  simp [metricValueTypeFor, h1, h2, h3]

theorem extractMetricValue_skipped {vt : String}
    (h : vt ∉ (["BOOL", "INT64", "DOUBLE"] : List String)) :
    ∀ cur, extractMetricValue vt cur = ExtractResult.skipped := by
  simp only [List.mem_cons, List.not_mem_nil, or_false, not_or] at h
  obtain ⟨h1, h2, h3⟩ := h
  intro cur
  simp [extractMetricValue, h1, h2, h3]

theorem processSeriesList_append_fail {normalize : String → String}
    {md : MetricDescriptor} {bad : TimeSeries} {post : List TimeSeries}
    {msg : String} (hbad : firstScanError bad.points = some msg) :
    ∀ (pre : List TimeSeries) (cur : Option Point) (samps : List Sample),
      processSeriesList normalize md cur pre = ⟨samps, ReportOutcome.ok⟩ →
      processSeriesList normalize md cur (pre ++ bad :: post) =
        ⟨samps, ReportOutcome.fail msg⟩ := by
  intro pre
  induction pre with
  | nil =>
    intro cur samps hpre
    have hsamps : samps = [] := by
      have := congrArg ReportResult.samples hpre
      exact this.symm
    subst hsamps
    rw [List.nil_append, processSeriesList]
    have hfail : processSeries normalize md cur bad = SeriesStep.fail msg := by
      unfold processSeries
      rw [scanPoints_error_of_firstScanError hbad cur 0]
    rw [hfail]
  | cons ts pre' ih =>
    intro cur samps hpre
    rw [List.cons_append, processSeriesList]
    rw [processSeriesList] at hpre
    cases hstep : processSeries normalize md cur ts with
    | emit n' s =>
      rw [hstep] at hpre
      dsimp only at hpre ⊢
      have hout : (processSeriesList normalize md n' pre').outcome = ReportOutcome.ok :=
        congrArg ReportResult.outcome hpre
      have hsamps : samps = s :: (processSeriesList normalize md n' pre').samples :=
        (congrArg ReportResult.samples hpre).symm
      have hrec := ih n' (processSeriesList normalize md n' pre').samples
        (by rw [← hout])
      rw [hrec, hsamps]
    | skip n' =>
      rw [hstep] at hpre
      dsimp only at hpre ⊢
      exact ih n' samps hpre
    | fail m =>
      rw [hstep] at hpre
      exact absurd (congrArg ReportResult.outcome hpre) (by simp)
    | fault =>
      rw [hstep] at hpre
      exact absurd (congrArg ReportResult.outcome hpre) (by simp)

/-- C1 (code bug): a TimeSeries with an empty points sequence is NOT skipped.
Because `newestTSPoint` (line 241) is declared outside the per-series loop,
an empty-points series with supported kind and value type reuses the previous
series' newest point — here `[tsInt42, tsNoPoints]` emits TWO samples, both
with `tsInt42`'s value 42 — and when the empty-points series comes first the
dereference `*newestTSPoint.Value...` (lines 270-276) is a nil-pointer panic. -/
theorem c1_empty_points_series_not_skipped :
    (reportTimeSeriesMetrics id mdFix [tsInt42, tsNoPoints]).samples.map Sample.value
      = [42, 42] ∧
    (reportTimeSeriesMetrics id mdFix [tsInt42, tsNoPoints]).outcome = ReportOutcome.ok ∧
    (reportTimeSeriesMetrics id mdFix [tsNoPoints]).outcome = ReportOutcome.fault := by
  decide

/-- C2 (counterexample): a series whose only point has end time exactly the
Unix epoch parses fine and is its own maximum, yet the reduction does not
select it: the strict `After` test against the initial `time.Unix(0,0)`
(lines 244, 250) never fires, so the stale point of the preceding series is
used and the emitted value is 42, not 9. -/
theorem c2_counterexample :
    (reportTimeSeriesMetrics id mdFix [tsInt42, tsEpochPoint]).samples.map Sample.value
      = [42, 42] ∧
    ((9 : ℚ) ≠ 42) := by
  decide

/-- C2 (amended): for a series whose points all parse, whose maximum end time
is uniquely attained and is strictly after the Unix epoch, the scan selects
exactly the maximal point and the emitted sample's value is computed from it. -/
theorem c2_reduce_selects_unique_newest (normalize : String → String)
    (md : MetricDescriptor) (ts : TimeSeries) (pmax : Point)
    (l1 l2 : List Point)
    (hsplit : ts.points = l1 ++ pmax :: l2)
    (hparse : ∀ p ∈ ts.points, parsablePoint p = true)
    (h1 : ∀ q ∈ l1, ptime q < ptime pmax)
    (h2 : ∀ q ∈ l2, ptime q < ptime pmax)
    (hpos : 0 < ptime pmax) :
    scanPoints none 0 ts.points = Except.ok (some pmax) ∧
    ∀ n' s, processSeries normalize md none ts = SeriesStep.emit n' s →
      n' = some pmax ∧
      extractMetricValue ts.valueType (some pmax) = ExtractResult.val s.value := by
  have hscan : scanPoints none 0 ts.points = Except.ok (some pmax) := by
    rw [hsplit] at hparse ⊢
    rw [scanPoints_eq_pickNewest hparse]
    rw [pickNewest_first (fun q hq => le_of_lt (h2 q hq)) l1 none 0 hpos h1]
  refine ⟨hscan, ?_⟩
  intro n' s hemit
  have inv := processSeries_emit_inv hemit
  have hn : n' = some pmax := Except.ok.inj (inv.1.symm.trans hscan)
  refine ⟨hn, ?_⟩
  have hx := inv.2.2.1
  rw [hn] at hx
  exact hx

/-- C2 (witness): with end times 1s, 6s, 3s (= T, T+5s, T+2s for T = 1s) the
6s point is selected and its value 55 is emitted. -/
theorem c2_witness :
    scanPoints none 0 tsC2.points = Except.ok (some pT2) ∧
    (reportTimeSeriesMetrics id mdFix [tsC2]).samples.map Sample.value = [55] :=
  ⟨(c2_reduce_selects_unique_newest id mdFix tsC2 pT2 [pT1] [pT3] rfl (by decide)
      (by decide) (by decide) (by decide)).1, by decide⟩

/-- C3 (counterexample): with two points sharing the maximum end time, the
FIRST point encountered in scan order wins (strict `After`, line 250): the
emitted value is 10 (the first point), not 20 (the last). -/
theorem c3_counterexample :
    (reportTimeSeriesMetrics id mdFix [tsTie]).samples.map Sample.value = [10] ∧
    (10 : ℚ) ≠ 20 := by
  decide

/-- C3 (amended): among points sharing the same maximum end time (all parsing,
maximum after the epoch), the point encountered FIRST in scan order is
selected. -/
theorem c3_first_of_equal_maxima_wins (points : List Point) (pfirst : Point)
    (l1 l2 : List Point)
    (hsplit : points = l1 ++ pfirst :: l2)
    (hparse : ∀ p ∈ points, parsablePoint p = true)
    (h1 : ∀ q ∈ l1, ptime q < ptime pfirst)
    (h2 : ∀ q ∈ l2, ptime q ≤ ptime pfirst)
    (hpos : 0 < ptime pfirst) :
    scanPoints none 0 points = Except.ok (some pfirst) := by
  rw [hsplit] at hparse ⊢
  rw [scanPoints_eq_pickNewest hparse]
  rw [pickNewest_first h2 l1 none 0 hpos h1]

/-- C3 (witness): for the tied points of `tsTie` the first point (value 10)
is the one selected. -/
theorem c3_witness :
    scanPoints none 0 tsTie.points = Except.ok (some (pInt 5 10)) :=
  c3_first_of_equal_maxima_wins tsTie.points (pInt 5 10) [] [pInt 5 20] rfl
    (by decide) (by decide) (by decide) (by decide)

/-- C4 (counterexample): the window is recomputed inside every descriptor-page
callback (lines 151-152), so two pages processed at different clock readings
issue time-series requests with different start/end bounds within the same
scrape — here (50, 100) versus (150, 200) for interval 50. -/
theorem c4_counterexample :
    (scrapeTSListRequests 50 [⟨100, 100, [mdFix]⟩, ⟨200, 200, [mdFix]⟩]).map
        TSListRequest.intervalStart = [50, 150] ∧
    (scrapeTSListRequests 50 [⟨100, 100, [mdFix]⟩, ⟨200, 200, [mdFix]⟩]).map
        TSListRequest.intervalEnd = [100, 200] ∧
    (50 : Int) ≠ 150 := by
  decide

/-- C4 (amended): the window is per descriptor page, not per scrape: every
time-series listing request issued for a descriptor of one page carries that
page's `startTime = now1 - interval` and `endTime = now2`, the two clock
readings taken at the top of that page's callback. -/
theorem c4_requests_share_page_window (interval : Int) (page : DescriptorPage) :
    ∀ r ∈ pageTSListRequests interval page,
      r.intervalStart = page.now1 - interval ∧ r.intervalEnd = page.now2 := by
  intro r hr
  simp only [pageTSListRequests, List.mem_map] at hr
  obtain ⟨d, -, rfl⟩ := hr
  exact ⟨rfl, rfl⟩

/-- C4 (witness): the one request of a one-descriptor page processed at clock
readings (100, 100) with interval 50 carries start 100 − 50 and end 100. -/
theorem c4_witness :
    reqFix.intervalStart = 100 - 50 ∧ reqFix.intervalEnd = 100 :=
  c4_requests_share_page_window 50 ⟨100, 100, [mdFix]⟩ reqFix (by decide)

/-- C5 (counterexample): a point end time that fails to parse makes
`reportTimeSeriesMetrics` return immediately (line 248), so a healthy sibling
series LATER in the same page emits nothing — its sample is lost, not
"unaffected". -/
theorem c5_counterexample :
    (reportTimeSeriesMetrics id mdFix [tsBadTime, tsInt42]).samples = [] ∧
    (reportTimeSeriesMetrics id mdFix [tsBadTime, tsInt42]).outcome =
      ReportOutcome.fail "Error parsing TimeSeries Point interval end time XXX" ∧
    (reportTimeSeriesMetrics id mdFix [tsInt42]).samples.length = 1 := by
  decide

/-- C5 (amended): a parse error is fatal to its series AND to every series
after it in the same page: processing stops at the failing series, exactly the
samples of the error-free prefix have been emitted, series after the failing
one contribute nothing (the result does not depend on `post`), and the error
is the function's return value, handed to the owning error channel exactly
like a fetch error (lines 179-182). -/
theorem c5_parse_error_aborts_whole_page (normalize : String → String)
    (md : MetricDescriptor) (pre : List TimeSeries) (bad : TimeSeries)
    (post : List TimeSeries) (samps : List Sample) (msg : String)
    (hpre : processSeriesList normalize md none pre = ⟨samps, ReportOutcome.ok⟩)
    (hbad : firstScanError bad.points = some msg) :
    reportTimeSeriesMetrics normalize md (pre ++ bad :: post) =
      ⟨samps, ReportOutcome.fail msg⟩ :=
  processSeriesList_append_fail hbad pre none samps hpre

/-- C5 (witness): with a clean series before and after the bad one, exactly
the earlier series' sample survives and the parse error is returned. -/
theorem c5_witness :
    reportTimeSeriesMetrics id mdFix ([tsInt42] ++ tsBadTime :: [tsC2]) =
      ⟨[sample42], ReportOutcome.fail "Error parsing TimeSeries Point interval end time XXX"⟩ :=
  c5_parse_error_aborts_whole_page id mdFix [tsInt42] tsBadTime [tsC2] [sample42]
    "Error parsing TimeSeries Point interval end time XXX" (by decide) (by decide)

/-- C6 (counterexample): a series with an unsupported metricKind is NOT always
"zero samples and no error": the timestamp parse loop (lines 245-249) runs
before the kind switch, so an unparseable point end time raises an error even
for a series the kind switch would have skipped. -/
theorem c6_counterexample :
    (reportTimeSeriesMetrics id mdFix
        [⟨⟨"m", []⟩, ⟨"gce_instance", []⟩, "FOO", "INT64",
          [⟨⟨.unparsable "XXX"⟩, .int64Value 1⟩]⟩]).outcome =
      ReportOutcome.fail "Error parsing TimeSeries Point interval end time XXX" := by
  decide

/-- C6 (amended): provided every point end time of the series parses, a series
with metricKind outside GAUGE/DELTA/CUMULATIVE, or with valueType outside
BOOL/INT64/DOUBLE, is skipped (zero samples, no error); and every emitted
sample's kind is gauge for GAUGE and counter for DELTA or CUMULATIVE. -/
theorem c6_kind_and_value_mapping (normalize : String → String)
    (md : MetricDescriptor) (cur : Option Point) (ts : TimeSeries) :
    (ts.metricKind ∉ (["GAUGE", "DELTA", "CUMULATIVE"] : List String) →
      firstScanError ts.points = none →
      ∃ n', processSeries normalize md cur ts = SeriesStep.skip n') ∧
    (ts.valueType ∉ (["BOOL", "INT64", "DOUBLE"] : List String) →
      firstScanError ts.points = none →
      ∃ n', processSeries normalize md cur ts = SeriesStep.skip n') ∧
    (∀ n' s, processSeries normalize md cur ts = SeriesStep.emit n' s →
      (ts.metricKind = "GAUGE" → s.valueKind = ValueKind.gaugeValue) ∧
      ((ts.metricKind = "DELTA" ∨ ts.metricKind = "CUMULATIVE") →
        s.valueKind = ValueKind.counterValue)) := by
  refine ⟨?_, ?_, ?_⟩
  · intro hk hnone
    obtain ⟨n', hscan⟩ := scanPoints_ok_of_firstScanError_none hnone cur 0
    refine ⟨n', ?_⟩
    unfold processSeries
    rw [hscan, metricValueTypeFor_eq_none hk]
  · intro hv hnone
    obtain ⟨n', hscan⟩ := scanPoints_ok_of_firstScanError_none hnone cur 0
    refine ⟨n', ?_⟩
    unfold processSeries
    rw [hscan]
    cases hmvt : metricValueTypeFor ts.metricKind with
    | none => rfl
    | some mvt =>
      dsimp only
      rw [extractMetricValue_skipped hv n']
  · intro n' s hemit
    have hmvt := (processSeries_emit_inv hemit).2.1
    constructor
    · intro hg
      rw [hg] at hmvt
      have h0 : metricValueTypeFor "GAUGE" = some ValueKind.gaugeValue := rfl
      rw [h0] at hmvt
      exact (Option.some.inj hmvt).symm
    · intro hd
      rcases hd with hd | hd
      · rw [hd] at hmvt
        have h0 : metricValueTypeFor "DELTA" = some ValueKind.counterValue := rfl
        rw [h0] at hmvt
        exact (Option.some.inj hmvt).symm
      · rw [hd] at hmvt
        have h0 : metricValueTypeFor "CUMULATIVE" = some ValueKind.counterValue := rfl
        rw [h0] at hmvt
        exact (Option.some.inj hmvt).symm

/-- C6 (witness): an unknown-kind series and a DISTRIBUTION-valued series with
parsable points are skipped; the GAUGE series `tsInt42` emits a gauge sample. -/
theorem c6_witness :
    (∃ n', processSeries id mdFix none tsFooKind = SeriesStep.skip n') ∧
    (∃ n', processSeries id mdFix none tsDistribution = SeriesStep.skip n') ∧
    sample42.valueKind = ValueKind.gaugeValue :=
  ⟨(c6_kind_and_value_mapping id mdFix none tsFooKind).1 (by decide) (by decide),
   (c6_kind_and_value_mapping id mdFix none tsDistribution).2.1 (by decide) (by decide),
   ((c6_kind_and_value_mapping id mdFix none tsInt42).2.2
      (some (pInt 1000000000 42)) sample42 (by decide)).1 rfl⟩

/-- C7 (counterexample): `float64(int64)` is not exact for every int64 value:
for the selected point value 2^53 + 1 = 9007199254740993 the emitted sample
value is 9007199254740992 (round to nearest even), not the int64 value. -/
theorem c7_counterexample :
    (reportTimeSeriesMetrics id mdFix [tsBigInt]).samples.map Sample.value
      = [(9007199254740992 : ℚ)] ∧
    (9007199254740992 : ℚ) ≠ (9007199254740993 : ℚ) := by
  decide

/-- C7 (amended): the emitted value is the selected point's value mapped as
BOOL true to 1 and false to 0, INT64 by IEEE-754 round-to-nearest-even float64
conversion (exact whenever the magnitude is at most 2^53), and DOUBLE
unchanged. -/
theorem c7_value_conversion (normalize : String → String) (md : MetricDescriptor)
    (cur : Option Point) (ts : TimeSeries) (n' : Option Point) (s : Sample)
    (hemit : processSeries normalize md cur ts = SeriesStep.emit n' s) :
    (ts.valueType = "BOOL" → ∃ p b, n' = some p ∧
      p.value = TypedValue.boolValue b ∧ s.value = if b then 1 else 0) ∧
    (ts.valueType = "INT64" → ∃ p v, n' = some p ∧
      p.value = TypedValue.int64Value v ∧
      s.value = ((roundInt64ToFloat64 v : Int) : ℚ) ∧
      (v.natAbs ≤ 2 ^ 53 → s.value = (v : ℚ))) ∧
    (ts.valueType = "DOUBLE" → ∃ p d, n' = some p ∧
      p.value = TypedValue.doubleValue d ∧ s.value = d) := by
  have hx := (processSeries_emit_inv hemit).2.2.1
  refine ⟨?_, ?_, ?_⟩
  · intro hb
    rw [hb] at hx
    rcases n' with _ | ⟨itv, pv⟩
    · simp [extractMetricValue] at hx
    · cases pv with
      | boolValue b =>
        refine ⟨⟨itv, .boolValue b⟩, b, rfl, rfl, ?_⟩
        simp only [extractMetricValue, if_pos] at hx
        exact (ExtractResult.val.inj hx).symm
      | int64Value v => simp [extractMetricValue] at hx
      | doubleValue d => simp [extractMetricValue] at hx
      | otherValue => simp [extractMetricValue] at hx
  · intro hi
    rw [hi] at hx
    rcases n' with _ | ⟨itv, pv⟩
    · simp [extractMetricValue] at hx
    · cases pv with
      | boolValue b => simp [extractMetricValue] at hx
      | int64Value v =>
        refine ⟨⟨itv, .int64Value v⟩, v, rfl, rfl, ?_, ?_⟩
        · simp only [extractMetricValue] at hx
          exact (ExtractResult.val.inj hx).symm
        · intro hsmall
          simp only [extractMetricValue] at hx
          rw [← ExtractResult.val.inj hx, roundInt64ToFloat64_exact hsmall]
      | doubleValue d => simp [extractMetricValue] at hx
      | otherValue => simp [extractMetricValue] at hx
  · intro hd
    rw [hd] at hx
    rcases n' with _ | ⟨itv, pv⟩
    · simp [extractMetricValue] at hx
    · cases pv with
      | boolValue b => simp [extractMetricValue] at hx
      | int64Value v => simp [extractMetricValue] at hx
      | doubleValue d =>
        refine ⟨⟨itv, .doubleValue d⟩, d, rfl, rfl, ?_⟩
        simp only [extractMetricValue] at hx
        exact (ExtractResult.val.inj hx).symm
      | otherValue => simp [extractMetricValue] at hx

/-- C7 (witness): for the INT64 series `tsInt42` the conversion is exact:
the emitted value is 42. -/
theorem c7_witness :
    ∃ p v, (some (pInt 1000000000 42) : Option Point) = some p ∧
      p.value = TypedValue.int64Value v ∧
      sample42.value = ((roundInt64ToFloat64 v : Int) : ℚ) ∧
      (v.natAbs ≤ 2 ^ 53 → sample42.value = (v : ℚ)) :=
  (c7_value_conversion id mdFix none tsInt42 (some (pInt 1000000000 42)) sample42
    (by decide)).2.1 rfl

/-- C8: every emitted sample's label keys start with the fixed pair
"unit", "resource_type" (even with no series labels), keys and values have
equal length and are positionally paired, and the metric/resource label keys
are appended as-is with no deduplication. -/
theorem c8_label_layout (normalize : String → String) (md : MetricDescriptor)
    (cur : Option Point) (ts : TimeSeries) (n' : Option Point) (s : Sample)
    (hemit : processSeries normalize md cur ts = SeriesStep.emit n' s) :
    s.labelKeys = "unit" :: "resource_type" ::
      (ts.metric.labels.map Prod.fst ++ ts.resource.labels.map Prod.fst) ∧
    s.labelValues = md.unit :: ts.resource.type ::
      (ts.metric.labels.map Prod.snd ++ ts.resource.labels.map Prod.snd) ∧
    s.labelKeys.length = s.labelValues.length ∧
    s.labelKeys.head? = some "unit" ∧
    s.labelKeys.get? 1 = some "resource_type" := by
  obtain ⟨-, -, -, -, -, hk, hvv⟩ := processSeries_emit_inv hemit
  refine ⟨hk, hvv, ?_, ?_, ?_⟩
  · rw [hk, hvv]
    simp
  · rw [hk]
    rfl
  · rw [hk]
    rfl

/-- C8 (witness): a series with the same label key "dup" among both metric and
resource labels keeps both occurrences, after the fixed leading pair. -/
theorem c8_witness :
    sampleDup.labelKeys = "unit" :: "resource_type" ::
      (tsDupLabels.metric.labels.map Prod.fst ++ tsDupLabels.resource.labels.map Prod.fst) ∧
    sampleDup.labelValues = mdFix.unit :: tsDupLabels.resource.type ::
      (tsDupLabels.metric.labels.map Prod.snd ++ tsDupLabels.resource.labels.map Prod.snd) ∧
    sampleDup.labelKeys.length = sampleDup.labelValues.length ∧
    sampleDup.labelKeys.head? = some "unit" ∧
    sampleDup.labelKeys.get? 1 = some "resource_type" :=
  c8_label_layout id mdFix none tsDupLabels (some (pInt 5 1)) sampleDup (by decide)

/-- C10: `Collect` always emits the six bookkeeping metrics, in both the error
and the success branch (it never propagates a pipeline failure: its only
outputs are the emissions and the updated metric state), sets the error gauge
to 1 exactly when the pipeline returned an error and 0 otherwise, increments
the scrape counter, and increments the scrape-error counter exactly on error. -/
theorem c10_collect_always_bookkeeps (reportErr : Option String)
    (nowUnix durationSeconds : ℚ) (st : CollectorState) :
    (Collect reportErr nowUnix durationSeconds st).2.map Prod.fst =
      ["stackdriver_monitoring_scrape_errors_total",
       "stackdriver_monitoring_api_calls_total",
       "stackdriver_monitoring_scrapes_total",
       "stackdriver_monitoring_last_scrape_error",
       "stackdriver_monitoring_last_scrape_timestamp",
       "stackdriver_monitoring_last_scrape_duration_seconds"] ∧
    (Collect reportErr nowUnix durationSeconds st).1.lastScrapeError =
      (if reportErr.isSome then 1 else 0) ∧
    (Collect reportErr nowUnix durationSeconds st).2.get? 3 =
      some ("stackdriver_monitoring_last_scrape_error",
        if reportErr.isSome then 1 else 0) ∧
    (Collect reportErr nowUnix durationSeconds st).1.scrapesTotal = st.scrapesTotal + 1 ∧
    (Collect reportErr nowUnix durationSeconds st).1.scrapeErrorsTotal =
      st.scrapeErrorsTotal + (if reportErr.isSome then 1 else 0) := by
  cases reportErr <;> simp [Collect]

end MonitoringCollector
